import Mathlib

/-
Verification of the Batch Model-Inference Driver
(customization/SageMakerTrainingJobs/cli_utility/006_custom_model_br_infrencer_module/
custom_model_inferencer.py).

Shallow embedding conventions:
  * Python dicts are association lists `List (String × JVal)` with dict-assignment
    semantics (`dictSet` updates in place or appends, matching insertion-order
    preservation of Python dicts); `entry.copy()` is the identity on the immutable
    value, so "copy then add fields" is `dictSet` applied to the original list.
  * The remote `client.converse` call is an oracle `Nat → CallOutcome` giving, for
    each successive call attempt, either the returned response value, a botocore
    `ClientError` with its error code, or any other exception.
  * `json.loads` is an oracle `String → Option JVal` (`none` = `JSONDecodeError`).
  * `time.sleep(exponential_backoff(k))` is recorded by appending `k` (the
    `retry_number` argument passed to the Backoff Calculator) to a `sleeps` trace.
  * Writing files is modelled by the file's line list; `sys.exit`/uncaught
    exceptions are modelled by `Option`/explicit exit codes.
-/

namespace NovaInferencer

/-- JSON values, the data produced by `json.loads` and consumed by the driver.
Objects keep their fields in insertion order, as Python dicts do. -/
inductive JVal : Type where
  | null : JVal
  | boolean : Bool → JVal
  | num : Int → JVal
  | str : String → JVal
  | arr : List JVal → JVal
  | obj : List (String × JVal) → JVal

/-- A Record (one JSONL entry): a Python dict from field names to JSON values. -/
abbrev Entry := List (String × JVal)

/-- The character class removed by Python `str.strip()` (ASCII whitespace). -/
def pySpace (c : Char) : Bool :=
  c = ' ' || c = '\t' || c = '\n' || c = '\r' || c = '\x0b' || c = '\x0c'

/-- `str.strip()` on the character list of a string. -/
def pyStripChars (l : List Char) : List Char :=
  ((l.dropWhile pySpace).reverse.dropWhile pySpace).reverse

/-- Python `line.strip()`. -/
def pyStrip (s : String) : String := ⟨pyStripChars s.data⟩

/-- Python `path.endswith(suffix)`. -/
def strEndsWith (s suffix : String) : Bool :=
  s.data.drop (s.data.length - suffix.data.length) == suffix.data

/-- Python `d[k]` / `d.get(k)` lookup on a dict: first binding of the key. -/
def dictGet (k : String) : Entry → Option JVal
  | [] => none
  | (k2, v) :: rest => if k2 = k then some v else dictGet k rest

/-- Python `d[k] = v` dict assignment: replace the binding in place if the key is
present, else append it (dicts preserve insertion order). -/
def dictSet (k : String) (v : JVal) : Entry → Entry
  | [] => [(k, v)]
  | (k2, w) :: rest => if k2 = k then (k2, v) :: rest else (k2, w) :: dictSet k v rest

/-- Python truthiness of a JSON value (`if x:`). -/
def JVal.truthy : JVal → Bool
  | .null => false
  | .boolean b => b
  | .num n => n != 0
  | .str s => !s.isEmpty
  | .arr xs => !xs.isEmpty
  | .obj fs => !fs.isEmpty

/- Field-name and error-code string constants of the source. -/

def kMessages : String := "messages"

def kSystem : String := "system"

def kText : String := "text"

def kOutput : String := "output"

def kMessage : String := "message"

def kContent : String := "content"

def kModelResponse : String := "model_response"

def kResponseText : String := "response_text"

def cThrottling : String := "ThrottlingException"

def cServiceUnavailable : String := "ServiceUnavailableException"

def cInternalServer : String := "InternalServerException"

def cRequestTimeout : String := "RequestTimeout"

/-- The hardcoded retriable error-code list of `call_nova` (source lines 273-274). -/
def retriable_codes : List String :=
  [cThrottling, cServiceUnavailable, cInternalServer, cRequestTimeout]

/-- Membership of a `ClientError` code in the retriable list. -/
def is_retriable (code : String) : Bool := retriable_codes.contains code

/- Constants of the source (lines 40-42). `MAX_RETRIES` is the default of the
`--retries` CLI flag; the backoff constants are used by `exponential_backoff`. -/

def MAX_RETRIES : Nat := 3

def INITIAL_BACKOFF : ℚ := 1

def MAX_BACKOFF : ℚ := 32

/-- `exponential_backoff(retry_number, jitter)` (source lines 174-179).
`rand` stands for the value drawn from `random.random()`, which lies in `[0, 1)`;
the function is a pure function of `(retry_number, jitter, rand)`, so it is
deterministic once the random draw is fixed. Arithmetic is over `ℚ`. -/
def exponential_backoff (retry_number : Nat) (jitter : Bool) (rand : ℚ) : ℚ :=
  let backoff := min MAX_BACKOFF (INITIAL_BACKOFF * 2 ^ retry_number)
  if jitter then backoff * (1 / 2 + rand) else backoff

/-- Outcome of one `client.converse` call attempt: a returned response value, a
botocore `ClientError` carrying an error code and message, or any other
exception (the `except Exception` branch of the source). -/
inductive CallOutcome : Type where
  | success : JVal → CallOutcome
  | clientError : String → String → CallOutcome
  | otherError : String → CallOutcome

/-- Result of Python subscripting during response-text extraction (source lines
259-264): a value, a `KeyError`/`IndexError` (caught there), or a `TypeError`
(not caught there; it escapes to the outer `except Exception` handler). -/
inductive PyLookup : Type where
  | val : JVal → PyLookup
  | keyIndexErr : PyLookup
  | typeErr : PyLookup

/-- Python `x[k]` for a string key `k`: field lookup on a dict (`KeyError` when
absent); `TypeError` on any non-dict value. -/
def jGetStr (k : String) : JVal → PyLookup
  | .obj fs =>
    match dictGet k fs with
    | some w => .val w
    | none => .keyIndexErr
  | _ => .typeErr

/-- Python `x[0]`: head of a list (`IndexError` when empty); first character of a
string (`IndexError` when empty); `KeyError` on a dict (no integer key exists in
this model, whose keys are strings); `TypeError` otherwise. -/
def jGetZero : JVal → PyLookup
  | .arr (x :: _) => .val x
  | .arr [] => .keyIndexErr
  | .str s => if s.isEmpty then .keyIndexErr else .val (.str (String.mk [s.front]))
  | .obj _ => .keyIndexErr
  | _ => .typeErr

/-- Propagate the first raised subscripting error. -/
def PyLookup.andThen : PyLookup → (JVal → PyLookup) → PyLookup
  | .val v, f => f v
  | .keyIndexErr, _ => .keyIndexErr
  | .typeErr, _ => .typeErr

/-- `model_response["output"]["message"]["content"][0]["text"]` (source line 260). -/
def extract_response_text (resp : JVal) : PyLookup :=
  ((((jGetStr kOutput resp).andThen (jGetStr kMessage)).andThen
      (jGetStr kContent)).andThen jGetZero).andThen (jGetStr kText)

/-- What `call_nova` returns and does: the first component of the returned pair
(always the entry it was given), the second component (`none` = Python `None`,
the failure marker), the number of `client.converse` call attempts made, and the
trace of `retry_number` arguments passed to `exponential_backoff` for the
`time.sleep` calls, in order. -/
structure RunResult : Type where
  entry : Entry
  result : Option Entry
  attempts : Nat
  sleeps : List Nat

/-- The retry loop of `call_nova` (source lines 237-313): `while retry_count <=
max_retries`. Each iteration makes one call attempt, whose outcome is
`oracle attempts`. On success the response is attached to a copy of the entry
under `model_response`, and `response_text` is set to the extracted text (or to
`None` when extraction raises `KeyError`/`IndexError`; a `TypeError` during
extraction escapes to the `except Exception` handler and is retried). On a
`ClientError` with a retriable code, and on any non-`ClientError` exception,
`retry_count` is incremented and, while `retry_count <= max_retries` still
holds, the loop sleeps `exponential_backoff(retry_count - 1)` and continues;
otherwise the original entry is returned with the failure marker. A
`ClientError` with any other code returns the failure marker immediately. Each
loop iteration either returns or increments `retry_count`, so `fuel =
max_retries + 1 - retry_count` bounds the iterations; the `fuel = 0` fallback is
the unreachable `return entry, None` of source line 313. -/
def call_nova_loop (oracle : Nat → CallOutcome) (max_retries : Nat) (entry : Entry) :
    Nat → Nat → Nat → List Nat → RunResult
  | 0, _, attempts, sleeps => ⟨entry, none, attempts, sleeps⟩
  | fuel + 1, retry_count, attempts, sleeps =>
    if retry_count ≤ max_retries then
      match oracle attempts with
      | .success resp =>
        let result := dictSet kModelResponse resp entry
        match extract_response_text resp with
        | .val t => ⟨entry, some (dictSet kResponseText t result), attempts + 1, sleeps⟩
        | .keyIndexErr => ⟨entry, some (dictSet kResponseText .null result), attempts + 1, sleeps⟩
        | .typeErr =>
          if retry_count + 1 ≤ max_retries then
            call_nova_loop oracle max_retries entry fuel (retry_count + 1) (attempts + 1)
              (sleeps ++ [retry_count])
          else ⟨entry, none, attempts + 1, sleeps⟩
      | .clientError code _ =>
        if is_retriable code then
          if retry_count + 1 ≤ max_retries then
            call_nova_loop oracle max_retries entry fuel (retry_count + 1) (attempts + 1)
              (sleeps ++ [retry_count])
          else ⟨entry, none, attempts + 1, sleeps⟩
        else ⟨entry, none, attempts + 1, sleeps⟩
      | .otherError _ =>
        if retry_count + 1 ≤ max_retries then
          call_nova_loop oracle max_retries entry fuel (retry_count + 1) (attempts + 1)
            (sleeps ++ [retry_count])
        else ⟨entry, none, attempts + 1, sleeps⟩
    else ⟨entry, none, attempts, sleeps⟩

/-- The value of `entry.get("messages", [])` (source line 218). -/
def getMessages (entry : Entry) : JVal := (dictGet kMessages entry).getD (.arr [])

/-- `call_nova` (source lines 182-313). The system-prompt and payload shaping of
lines 207-232 only determines the request sent to the remote endpoint, which
this embedding abstracts as the outcome oracle; the one piece of it that affects
control flow is the `if not messages: return entry, None` early exit of lines
218-221, modelled here by the truthiness test. -/
def call_nova (oracle : Nat → CallOutcome) (max_retries : Nat) (entry : Entry) : RunResult :=
  if (getMessages entry).truthy then
    call_nova_loop oracle max_retries entry (max_retries + 1) 0 0 []
  else ⟨entry, none, 0, []⟩

/-- `process_batch` (source lines 316-344). The batch is submitted to a bounded
thread pool and results are collected in `as_completed` order, which is an
arbitrary permutation of the submitted entries; the embedding therefore takes
the completed sequence `completed` (pairs of submission index and entry)
explicitly, and the theorems quantify over all permutations of the indexed
batch. `oracle i` is the remote-call oracle used by the worker of the entry
submitted at index `i`. For each completed future, the returned pair of
`call_nova` is destructured (source line 338) and the result is appended to
`results` when it is truthy (`if result:`, line 339 — `None` and an empty dict
are falsy) and the returned entry is appended to `failures` otherwise. -/
def process_batch_step (oracle : Nat → Nat → CallOutcome) (max_retries : Nat)
    (acc : List Entry × List Entry) (p : Nat × Entry) : List Entry × List Entry :=
  let r := call_nova (oracle p.1) max_retries p.2
  match r.result with
  | some res =>
    if res.isEmpty then (acc.1, acc.2 ++ [r.entry]) else (acc.1 ++ [res], acc.2)
  | none => (acc.1, acc.2 ++ [r.entry])

def process_batch (oracle : Nat → Nat → CallOutcome) (max_retries : Nat)
    (completed : List (Nat × Entry)) : List Entry × List Entry :=
  completed.foldl (process_batch_step oracle max_retries) ([], [])

/-- The run of `call_nova` for the batch element submitted at index `p.1`. -/
def runOf (oracle : Nat → Nat → CallOutcome) (max_retries : Nat) (p : Nat × Entry) :
    RunResult :=
  call_nova (oracle p.1) max_retries p.2

/-- The contribution of one batch element to the `results` list (its truthy
augmented result), if any. -/
def successOf (oracle : Nat → Nat → CallOutcome) (max_retries : Nat) (p : Nat × Entry) :
    Option Entry :=
  match (runOf oracle max_retries p).result with
  | some res => if res.isEmpty then none else some res
  | none => none

/-- The contribution of one batch element to the `failures` list (the entry
returned by `call_nova`), if any. -/
def failEntryOf (oracle : Nat → Nat → CallOutcome) (max_retries : Nat) (p : Nat × Entry) :
    Option Entry :=
  match (runOf oracle max_retries p).result with
  | some res => if res.isEmpty then some (runOf oracle max_retries p).entry else none
  | none => some (runOf oracle max_retries p).entry

/-- What `read_jsonl` produces (source lines 138-154): the list of parsed
entries, and the number of `Skipping invalid JSON` warnings logged. -/
structure ReadResult : Type where
  data : List JVal
  warnings : Nat

/-- `read_jsonl` (source lines 138-154): for each line of the file, if
`line.strip()` is truthy the line is passed to `json.loads`; a parsed entry is
appended to `data`, a `JSONDecodeError` logs a warning and processing
continues; blank lines are skipped silently. `parse` is the `json.loads`
oracle (`none` = `JSONDecodeError`). -/
def read_jsonl_step (parse : String → Option JVal) (acc : ReadResult) (line : String) :
    ReadResult :=
  if (pyStripChars line.data).isEmpty then acc
  else
    match parse line with
    | some v => ⟨acc.data ++ [v], acc.warnings⟩
    | none => ⟨acc.data, acc.warnings + 1⟩

def read_jsonl (parse : String → Option JVal) (lines : List String) : ReadResult :=
  lines.foldl (read_jsonl_step parse) ⟨[], 0⟩

/-- The two open modes `save_to_jsonl` is called with. -/
inductive WMode : Type where
  | write : WMode
  | append : WMode

/-- `save_to_jsonl` (source lines 157-171) as a transform of the target file's
content: mode `'w'` truncates the file to the new items, mode `'a'` appends
them. The backup-file fallback of lines 164-171 handles a local I/O failure,
outside this embedding. -/
def save_to_jsonl (data : List Entry) (fileContent : List Entry) (mode : WMode) :
    List Entry :=
  match mode with
  | .write => data
  | .append => fileContent ++ data

/-- How one line of `validate_jsonl` affects the counters: `valid_entries + 1`,
`invalid_entries + 1`, or both. The `both` case is the system-list check of
source lines 397-403: a malformed `system[i]` increments `invalid_entries` and
breaks out of the inner loop, after which control falls through to
`valid_entries += 1` on line 409. -/
inductive LineVerdict : Type where
  | valid : LineVerdict
  | invalid : LineVerdict
  | both : LineVerdict

/-- Is one element of a `system` list a dict with a `text` field
(source line 400)? -/
def system_msg_ok : JVal → Bool
  | .obj fs => (dictGet kText fs).isSome
  | _ => false

/-- The per-line verdict of `validate_jsonl` (source lines 373-416). A line
whose stripped text fails `json.loads` is invalid. A parsed non-dict value also
always lands in `invalid_entries`: a list or a string either lacks the
`messages` member (line 378) or raises `TypeError` at `data["messages"]`, and
`"messages" not in data` raises `TypeError` on the remaining kinds; both
exceptions are caught by the `except Exception` arm on line 414. For a dict:
missing/non-list/empty `messages` is invalid; then a present `system` field
must be a list of dicts with `text` (a bad element counts the line both invalid
and valid, see `LineVerdict.both`) or a string (anything else is invalid). -/
def validate_line (parse : String → Option JVal) (line : String) : LineVerdict :=
  match parse (pyStrip line) with
  | none => .invalid
  | some v =>
    match v with
    | .obj fs =>
      match dictGet kMessages fs with
      | none => .invalid
      | some m =>
        match m with
        | .arr [] => .invalid
        | .arr (_ :: _) =>
          match dictGet kSystem fs with
          | none => .valid
          | some s =>
            match s with
            | .arr items => if items.all system_msg_ok then .valid else .both
            | .str _ => .valid
            | _ => .invalid
        | _ => .invalid
    | _ => .invalid

/-- The `(valid_entries, invalid_entries)` counters after the line loop of
`validate_jsonl`. -/
def validate_counts (parse : String → Option JVal) (lines : List String) : Nat × Nat :=
  lines.foldl
    (fun acc line =>
      match validate_line parse line with
      | .valid => (acc.1 + 1, acc.2)
      | .invalid => (acc.1, acc.2 + 1)
      | .both => (acc.1 + 1, acc.2 + 1))
    (0, 0)

def sJsonlExt : String := ".jsonl"

/-- `validate_jsonl` (source lines 347-434): `False` when the file does not
exist or lacks the `.jsonl` extension; otherwise `True` iff `invalid_entries`
is zero after the line loop. `fileExists` models `os.path.exists(file_path)`. -/
def validate_jsonl (parse : String → Option JVal) (fileExists : Bool) (path : String)
    (lines : List String) : Bool :=
  if !fileExists then false
  else if !strEndsWith path sJsonlExt then false
  else (validate_counts parse lines).2 == 0

/-- `cmd_validate` (source lines 533-536) together with `main` (548-566), as the
process exit code of `validate`: `cmd_validate` calls `validate_jsonl` and
discards its boolean result, `main` then returns normally, so the interpreter
exits with code 0 whatever the validation outcome. -/
def cmd_validate (parse : String → Option JVal) (fileExists : Bool) (path : String)
    (lines : List String) : Nat :=
  let _ := validate_jsonl parse fileExists path lines
  0

/-- The slicing loop of the batch slices, by structural recursion on a fuel
that bounds the number of slices (the list length suffices: each slice consumes
at least one element when `batch_size ≥ 1`). -/
def chunksGo {α : Type} (batch_size : Nat) : Nat → List α → List (List α)
  | 0, _ => []
  | _, [] => []
  | fuel + 1, x :: xs =>
    (x :: xs).take batch_size :: chunksGo batch_size fuel ((x :: xs).drop batch_size)

/-- The batch slices `data[i:i+batch_size]` for `i in range(0, len(data),
batch_size)` (source lines 487-488). A zero step makes Python's `range` raise
`ValueError`; no claim exercises it, and it is modelled as producing no
batches. -/
def chunks {α : Type} (batch_size : Nat) (l : List α) : List (List α) :=
  if batch_size = 0 then [] else chunksGo batch_size l.length l

/-- The mutable state of the batch loop of `cmd_infer` (source lines 479-512):
the `output_file_exists` flag, the (modelled) existence of the failures file,
the contents of both output files as flushed so far, the open modes used for
each flush of each file in order, and the `all_results` / `all_failures`
accumulators. -/
structure InferState : Type where
  outFileExists : Bool
  failFileExists : Bool
  resultsFile : List Entry
  failuresFile : List Entry
  resultModes : List WMode
  failModes : List WMode
  allResults : List Entry
  allFailures : List Entry

/-- One iteration of the batch loop of `cmd_infer` (source lines 487-512) on the
batch with index `b.1` and entries `b.2`: run `process_batch` (completion order
modelled as submission order — the flush logic is order-insensitive), flush a
nonempty `results` to the primary output with mode `'a'` iff
`output_file_exists or all_results` (line 497), flush nonempty `failures` to
the failures file with mode `'a'` iff the failures file exists `or
all_failures` (line 504), then extend the accumulators (lines 509-510). The
source's two flush blocks run in sequence but read and write disjoint parts of
the state (the first only result fields, the second only failure fields, both
before the accumulators are extended), so they are modelled as one record
update. -/
def infer_step (oracle : Nat → Nat → Nat → CallOutcome) (max_retries : Nat)
    (st : InferState) (b : Nat × List Entry) : InferState :=
  let pr := process_batch (oracle b.1) max_retries b.2.enum
  let results := pr.1
  let failures := pr.2
  let rmode :=
    if st.outFileExists || !st.allResults.isEmpty then WMode.append else WMode.write
  let fmode :=
    if st.failFileExists || !st.allFailures.isEmpty then WMode.append else WMode.write
  { outFileExists := st.outFileExists || !results.isEmpty
    failFileExists := st.failFileExists || !failures.isEmpty
    resultsFile :=
      if results.isEmpty then st.resultsFile else save_to_jsonl results st.resultsFile rmode
    failuresFile :=
      if failures.isEmpty then st.failuresFile
      else save_to_jsonl failures st.failuresFile fmode
    resultModes := if results.isEmpty then st.resultModes else st.resultModes ++ [rmode]
    failModes := if failures.isEmpty then st.failModes else st.failModes ++ [fmode]
    allResults := st.allResults ++ results
    allFailures := st.allFailures ++ failures }

/-- `data = data[start_index:]` with the out-of-range guard (source lines
469-474): `none` models `sys.exit(1)`; a start index of 0 passes the data
through unchanged. -/
def apply_start_index (start : Nat) (data : List Entry) : Option (List Entry) :=
  if start > 0 then
    if start ≥ data.length then none else some (data.drop start)
  else some data

/-- The batch loop of `cmd_infer` (source lines 479-512): fold `infer_step` over
the enumerated batches of `data`. `exists0` is `os.path.exists(args.output)`
checked on line 480 before the loop; `failExists0` is the initial existence of
`<output>.failures.jsonl`. `oracle b i` is the remote-call oracle for the entry
at position `i` of batch `b`. -/
def cmd_infer_run (oracle : Nat → Nat → Nat → CallOutcome) (max_retries batch_size : Nat)
    (exists0 failExists0 : Bool) (data : List Entry) : InferState :=
  ((chunks batch_size data).enum).foldl (infer_step oracle max_retries)
    ⟨exists0, failExists0, [], [], [], [], [], []⟩

/-- The success-rate computation of the final summary (source line 527):
`len(all_results)/(len(all_results) + len(all_failures))*100`. The division is
unguarded in the source; `none` models the `ZeroDivisionError` raised when the
total is zero. -/
def infer_summary (st : InferState) : Option ℚ :=
  let total := st.allResults.length + st.allFailures.length
  if total = 0 then none
  else some ((st.allResults.length : ℚ) / (total : ℚ) * 100)

/-- A call outcome that takes a retry branch of the loop: a `ClientError` whose
code is in the retriable list, or any non-`ClientError` exception. -/
def retriable_outcome : CallOutcome → Prop
  | .success _ => False
  | .clientError code _ => is_retriable code = true
  | .otherError _ => True

/-- Invariant of the batch loop when the primary output file did not exist at
the start of the run: the file holds exactly the concatenation of all flushed
results, and the flush modes so far are either none at all (file still absent)
or one overwrite followed by appends. -/
def fresh_inv (st : InferState) : Prop :=
  st.resultsFile = st.allResults ∧
  ((st.outFileExists = false ∧ st.allResults = [] ∧ st.resultModes = []) ∨
    (st.outFileExists = true ∧
      ∃ k, st.resultModes = WMode.write :: List.replicate k WMode.append))

/-- Invariant of the batch loop when the primary output file already existed at
the start of the run: every flush, including the first, uses append mode. -/
def append_inv (st : InferState) : Prop :=
  st.outFileExists = true ∧ ∃ k, st.resultModes = List.replicate k WMode.append

/- Concrete inputs used by witnesses and counterexamples. -/

def sOk : String := "ok"

def mB : String := "m"

def cAccessDenied : String := "AccessDeniedException"

/-- A well-formed record: a non-empty `messages` list. -/
def entryB : Entry := [(kMessages, JVal.arr [JVal.obj []])]

/-- A well-shaped `converse` response whose extracted text is `sOk`. -/
def respB : JVal :=
  JVal.obj [(kOutput, JVal.obj [(kMessage, JVal.obj
    [(kContent, JVal.arr [JVal.obj [(kText, JVal.str sOk)]])])])]

/-- The augmented result `call_nova` builds from `entryB` and `respB`. -/
def resultB : Entry :=
  dictSet kResponseText (JVal.str sOk) (dictSet kModelResponse respB entryB)

/-- Scenario B oracle: throttled twice, then a successful response. -/
def oracleB : Nat → CallOutcome := fun i =>
  if i < 2 then CallOutcome.clientError cThrottling mB else CallOutcome.success respB

/-- An oracle that throttles on every attempt. -/
def oracleThrottle : Nat → CallOutcome := fun _ => CallOutcome.clientError cThrottling mB

/-- An oracle that raises a permission-denied `ClientError` on every attempt. -/
def oracleDenied : Nat → CallOutcome := fun _ => CallOutcome.clientError cAccessDenied mB

/-- An oracle that raises a non-`ClientError` exception on every attempt. -/
def oracleOther : Nat → CallOutcome := fun _ => CallOutcome.otherError mB

/-- An oracle whose every call succeeds. -/
def oracleOK : Nat → CallOutcome := fun _ => CallOutcome.success respB

/-- A per-entry oracle family whose every call succeeds. -/
def oracleOK2 : Nat → Nat → CallOutcome := fun _ _ => CallOutcome.success respB

/-- A per-batch, per-entry oracle family whose every call succeeds. -/
def oracleOK3 : Nat → Nat → Nat → CallOutcome := fun _ _ _ => CallOutcome.success respB

def lineBadD : String := "x"

def lineGoodD : String := "g"

def recD : JVal := JVal.obj [(kMessages, JVal.arr [JVal.obj []])]

/-- A `json.loads` oracle for Scenario D: `lineGoodD` parses, everything else
(in particular `lineBadD`) raises `JSONDecodeError`. -/
def parseD : String → Option JVal := fun s => if s = lineGoodD then some recD else none

def pathV : String := "t.jsonl"

def lineV : String := "e"

/-- A structurally invalid record: its `messages` list is empty. -/
def recV : JVal := JVal.obj [(kMessages, JVal.arr [])]

/-- A `json.loads` oracle under which `lineV` parses to the invalid `recV`. -/
def parseV : String → Option JVal := fun s => if s = lineV then some recV else none

/-- A `json.loads` oracle under which every line raises `JSONDecodeError`. -/
def parseNone : String → Option JVal := fun _ => none

def lineB9 : String := "z"

/- Theorems. -/

/-- Updating one key leaves lookups of every other key unchanged. -/
theorem dictGet_dictSet_ne (k k2 : String) (v : JVal) (h : k ≠ k2) :
    ∀ l : Entry, dictGet k (dictSet k2 v l) = dictGet k l := by
  intro l
  induction l with
  | nil =>
    simp only [dictSet, dictGet]
    rw [if_neg (fun e => h e.symm)]
  | cons p rest ih =>
    obtain ⟨a, w⟩ := p
    simp only [dictSet]
    by_cases ha : a = k2
    · rw [if_pos ha]
      simp only [dictGet]
      by_cases hak : a = k
      · subst hak
        exact absurd ha h
      · rw [if_neg hak, if_neg hak]
    · rw [if_neg ha]
      simp only [dictGet]
      by_cases hak : a = k
      · rw [if_pos hak, if_pos hak]
      · rw [if_neg hak, if_neg hak]
        exact ih

/-- Accumulator form of the `read_jsonl` line loop. -/
theorem read_jsonl_go (parse : String → Option JVal) :
    ∀ (lines : List String) (d : List JVal) (w : Nat),
      lines.foldl (read_jsonl_step parse) ⟨d, w⟩ =
        ⟨d ++ lines.filterMap (fun l => if (pyStripChars l.data).isEmpty then none else parse l),
          w + (lines.filter (fun l => !(pyStripChars l.data).isEmpty && (parse l).isNone)).length⟩ := by
  intro lines
  induction lines with
  | nil => intro d w; simp
  | cons l ls ih =>
    intro d w
    simp only [List.foldl_cons, read_jsonl_step]
    by_cases hb : pyStripChars l.data = []
    · rw [if_pos (by simp [hb]), ih d w]
      simp [List.filterMap_cons, List.filter_cons, hb]
    · rw [if_neg (by simp [List.isEmpty_iff, hb])]
      cases hp : parse l with
      | some v =>
        rw [ih (d ++ [v]) w]
        simp [List.filterMap_cons, List.filter_cons, List.isEmpty_iff, hb, hp]
      | none =>
        rw [ih d (w + 1)]
        simp [List.filterMap_cons, List.filter_cons, List.isEmpty_iff, hb, hp,
          ReadResult.mk.injEq]
        omega

/-- Claim C6: `read_jsonl` returns exactly the records parsed from the
non-blank lines that are valid JSON, in input order, counting one logged
warning per invalid non-blank line and continuing past it; in particular a file
with one malformed line followed by one valid line yields exactly one record
and one warning. -/
theorem read_jsonl_malformed_recovery :
    (∀ (parse : String → Option JVal) (lines : List String),
      (read_jsonl parse lines).data =
          lines.filterMap (fun l => if (pyStripChars l.data).isEmpty then none else parse l) ∧
      (read_jsonl parse lines).warnings =
          (lines.filter (fun l => !(pyStripChars l.data).isEmpty && (parse l).isNone)).length) ∧
    read_jsonl parseD [lineBadD, lineGoodD] = ⟨[recD], 1⟩ := by
  constructor
  · intro parse lines
    rw [read_jsonl, read_jsonl_go]
    simp
  · rfl

/-- Claim C3: the pre-jitter delay of the Backoff Calculator is
`min(32, 1 * 2^attempt)` seconds (here the jitter-free value of
`exponential_backoff`, independent of the random draw), hence non-decreasing in
the attempt number and never above 32; with jitter on, the returned delay is
the pre-jitter delay times a factor in `[0.5, 1.5)` determined by the random
draw — the function is pure, and fixing the draw fixes its value. -/
theorem exponential_backoff_spec :
    (∀ (n : Nat) (r : ℚ), exponential_backoff n false r = min 32 (2 ^ n)) ∧
    (∀ (m n : Nat) (r : ℚ), m ≤ n →
      exponential_backoff m false r ≤ exponential_backoff n false r) ∧
    (∀ (n : Nat) (r : ℚ), exponential_backoff n false r ≤ 32) ∧
    (∀ (n : Nat) (r : ℚ), 0 ≤ r → r < 1 →
      ∃ factor, exponential_backoff n true r = exponential_backoff n false r * factor ∧
        1 / 2 ≤ factor ∧ factor < 3 / 2) := by
  refine ⟨?_, ?_, ?_, ?_⟩
  · intro n r
    simp [exponential_backoff, MAX_BACKOFF, INITIAL_BACKOFF]
  · intro m n r h
    simp only [exponential_backoff, if_neg, Bool.false_eq_true, MAX_BACKOFF,
      INITIAL_BACKOFF, one_mul]
    exact min_le_min le_rfl (pow_le_pow_right₀ one_le_two h)
  · intro n r
    simp only [exponential_backoff, if_neg, Bool.false_eq_true, MAX_BACKOFF,
      INITIAL_BACKOFF, one_mul]
    exact min_le_left _ _
  · intro n r h0 h1
    refine ⟨1 / 2 + r, ?_, by linarith, by linarith⟩
    simp [exponential_backoff]

/-- Witness for Claim C3 at concrete inputs. -/
theorem exponential_backoff_spec_witness :
    exponential_backoff 1 false 0 ≤ exponential_backoff 5 false 0 ∧
    ∃ factor, exponential_backoff 2 true (1 / 3) =
        exponential_backoff 2 false (1 / 3) * factor ∧
      1 / 2 ≤ factor ∧ factor < 3 / 2 :=
  ⟨exponential_backoff_spec.2.1 1 5 0 (by norm_num),
    exponential_backoff_spec.2.2.2 2 (1 / 3) (by norm_num) (by norm_num)⟩

/-- The retry loop under an oracle whose every outcome takes a retry branch:
with `retry_count + fuel = max_retries + 1`, the loop makes one call attempt per
unit of fuel, sleeping `exponential_backoff(k)` for `k = retry_count, ...,
max_retries - 1` between consecutive attempts, and ends with the failure
marker. -/
theorem call_nova_loop_retriable (oracle : Nat → CallOutcome) (mr : Nat) (entry : Entry)
    (h : ∀ i, retriable_outcome (oracle i)) :
    ∀ (fuel rc att : Nat) (sl : List Nat), rc + fuel = mr + 1 →
      call_nova_loop oracle mr entry fuel rc att sl =
        ⟨entry, none, att + fuel, sl ++ List.range' rc (fuel - 1)⟩ := by
  intro fuel
  induction fuel with
  | zero =>
    intro rc att sl hrc
    simp [call_nova_loop]
  | succ f ih =>
    intro rc att sl hrc
    simp only [call_nova_loop]
    rw [if_pos (by omega : rc ≤ mr)]
    cases ho : oracle att with
    | success resp => exact absurd (h att) (by simp [retriable_outcome, ho])
    | clientError code msg =>
      have hcode : is_retriable code = true := by
        have hh := h att
        rw [ho] at hh
        exact hh
      dsimp only
      rw [if_pos hcode]
      by_cases hrc2 : rc + 1 ≤ mr
      · rw [if_pos hrc2, ih (rc + 1) (att + 1) (sl ++ [rc]) (by omega)]
        obtain ⟨g, rfl⟩ : ∃ g, f = g + 1 := ⟨f - 1, by omega⟩
        simp [List.range'_succ, RunResult.mk.injEq]
        omega
      · rw [if_neg hrc2]
        have hf : f = 0 := by omega
        subst hf
        simp [RunResult.mk.injEq]
    | otherError msg =>
      dsimp only
      by_cases hrc2 : rc + 1 ≤ mr
      · rw [if_pos hrc2, ih (rc + 1) (att + 1) (sl ++ [rc]) (by omega)]
        obtain ⟨g, rfl⟩ : ∃ g, f = g + 1 := ⟨f - 1, by omega⟩
        simp [List.range'_succ, RunResult.mk.injEq]
        omega
      · rw [if_neg hrc2]
        have hf : f = 0 := by omega
        subst hf
        simp [RunResult.mk.injEq]

/-- `call_nova` on a record with messages, under an oracle whose every attempt
takes a retry branch: `max_retries + 1` attempts, one backoff sleep between
consecutive attempts (`exponential_backoff(0), ..., exponential_backoff(mr-1)`),
then the failure marker. -/
theorem call_nova_retriable (oracle : Nat → CallOutcome) (mr : Nat) (entry : Entry)
    (hm : (getMessages entry).truthy = true) (h : ∀ i, retriable_outcome (oracle i)) :
    call_nova oracle mr entry = ⟨entry, none, mr + 1, List.range mr⟩ := by
  rw [call_nova, if_pos hm,
    call_nova_loop_retriable oracle mr entry h (mr + 1) 0 0 [] (by omega)]
  simp [List.range_eq_range']

/-- Claim C2: if every remote attempt raises a transient service error (a
`ClientError` whose code is in the retriable list), `call_nova` makes exactly
`max_retries + 1` call attempts with one backoff sleep between consecutive
attempts (`exponential_backoff(0..max_retries-1)`), then returns the failure
marker; and in Scenario B (`max_retries = 3`, throttled exactly twice, then
success) exactly the two sleeps `exponential_backoff(0)` and
`exponential_backoff(1)` occur and the record comes back as a success. -/
theorem call_nova_transient_retry_spec :
    (∀ (entry : Entry) (oracle : Nat → CallOutcome) (mr : Nat),
      (getMessages entry).truthy = true →
      (∀ i, ∃ code msg, oracle i = CallOutcome.clientError code msg ∧
        is_retriable code = true) →
      call_nova oracle mr entry = ⟨entry, none, mr + 1, List.range mr⟩) ∧
    call_nova oracleB 3 entryB = ⟨entryB, some resultB, 3, [0, 1]⟩ := by
  constructor
  · intro entry oracle mr hm h
    refine call_nova_retriable oracle mr entry hm (fun i => ?_)
    obtain ⟨code, msg, hoc, hcode⟩ := h i
    rw [hoc]
    simpa [retriable_outcome] using hcode
  · rfl

/-- Witness for Claim C2: a record whose every attempt throttles, with
`max_retries = 2`, makes 3 attempts, sleeps twice, and fails. -/
theorem call_nova_transient_retry_spec_witness :
    call_nova oracleThrottle 2 entryB = ⟨entryB, none, 3, List.range 2⟩ :=
  call_nova_transient_retry_spec.1 entryB oracleThrottle 2 rfl
    (fun _ => ⟨cThrottling, mB, rfl, rfl⟩)

/-- Claim C10: an exception that is not a typed service error (not a
`ClientError`) is treated as retriable: `call_nova` sleeps per the Backoff
Calculator and retries up to `max_retries` times, then returns the failure
marker — the run is identical to one whose every attempt raises a listed
transient error such as `ThrottlingException`. -/
theorem call_nova_unexpected_exception_retry :
    ∀ (entry : Entry) (oracle : Nat → CallOutcome) (mr : Nat) (msg : String),
      (getMessages entry).truthy = true →
      (∀ i, oracle i = CallOutcome.otherError msg) →
      call_nova oracle mr entry = ⟨entry, none, mr + 1, List.range mr⟩ ∧
      call_nova oracle mr entry =
        call_nova (fun _ => CallOutcome.clientError cThrottling msg) mr entry := by
  intro entry oracle mr msg hm h
  have h1 : call_nova oracle mr entry = ⟨entry, none, mr + 1, List.range mr⟩ :=
    call_nova_retriable oracle mr entry hm (fun i => by rw [h i]; trivial)
  have h2 : call_nova (fun _ => CallOutcome.clientError cThrottling msg) mr entry
      = ⟨entry, none, mr + 1, List.range mr⟩ :=
    call_nova_retriable _ mr entry hm (fun i => by
      show is_retriable cThrottling = true
      rfl)
  exact ⟨h1, h1.trans h2.symm⟩

/-- Witness for Claim C10 at concrete inputs. -/
theorem call_nova_unexpected_exception_retry_witness :
    call_nova oracleOther 3 entryB = ⟨entryB, none, 4, List.range 3⟩ ∧
    call_nova oracleOther 3 entryB =
      call_nova (fun _ => CallOutcome.clientError cThrottling mB) 3 entryB :=
  call_nova_unexpected_exception_retry entryB oracleOther 3 mB rfl (fun _ => rfl)

/-- Claim C4: a `ClientError` whose code is not in the transient list makes
`call_nova` return the original record with the absent-marker after exactly one
call attempt, with no backoff sleep and no exception propagated. -/
theorem call_nova_nonretriable_fast_fail :
    ∀ (entry : Entry) (oracle : Nat → CallOutcome) (mr : Nat) (code msg : String),
      (getMessages entry).truthy = true →
      oracle 0 = CallOutcome.clientError code msg →
      is_retriable code = false →
      call_nova oracle mr entry = ⟨entry, none, 1, []⟩ := by
  intro entry oracle mr code msg hm h0 hcode
  rw [call_nova, if_pos hm]
  show call_nova_loop oracle mr entry (mr + 1) 0 0 [] = _
  simp only [call_nova_loop]
  rw [if_pos (Nat.zero_le mr), h0]
  simp [hcode]

/-- Witness for Claim C4: a permission-denied error fails immediately. -/
theorem call_nova_nonretriable_fast_fail_witness :
    call_nova oracleDenied 3 entryB = ⟨entryB, none, 1, []⟩ :=
  call_nova_nonretriable_fast_fail entryB oracleDenied 3 cAccessDenied mB rfl rfl rfl

/-- Every exit of the retry loop returns the entry it was given as first
component, and every returned result is the entry extended (via dict
assignment on a copy) with `model_response` and `response_text`. -/
theorem call_nova_loop_shape (oracle : Nat → CallOutcome) (mr : Nat) (entry : Entry) :
    ∀ (fuel rc att : Nat) (sl : List Nat),
      (call_nova_loop oracle mr entry fuel rc att sl).entry = entry ∧
      ∀ res, (call_nova_loop oracle mr entry fuel rc att sl).result = some res →
        ∃ resp t, res = dictSet kResponseText t (dictSet kModelResponse resp entry) := by
  intro fuel
  induction fuel with
  | zero =>
    intro rc att sl
    exact ⟨rfl, fun res h => by simp [call_nova_loop] at h⟩
  | succ f ih =>
    intro rc att sl
    simp only [call_nova_loop]
    by_cases hg : rc ≤ mr
    · rw [if_pos hg]
      cases ho : oracle att with
      | success resp =>
        dsimp only
        cases he : extract_response_text resp with
        | val t =>
          refine ⟨rfl, fun res h => ?_⟩
          simp only [he] at h
          simp at h
          exact ⟨_, _, h.symm⟩
        | keyIndexErr =>
          refine ⟨rfl, fun res h => ?_⟩
          simp only [he] at h
          simp at h
          exact ⟨_, _, h.symm⟩
        | typeErr =>
          simp only [he]
          by_cases hrc2 : rc + 1 ≤ mr
          · rw [if_pos hrc2]
            exact ih (rc + 1) (att + 1) (sl ++ [rc])
          · rw [if_neg hrc2]
            exact ⟨rfl, fun res h => by simp at h⟩
      | clientError code msg =>
        dsimp only
        by_cases hcode : is_retriable code
        · rw [if_pos hcode]
          by_cases hrc2 : rc + 1 ≤ mr
          · rw [if_pos hrc2]
            exact ih (rc + 1) (att + 1) (sl ++ [rc])
          · rw [if_neg hrc2]
            exact ⟨rfl, fun res h => by simp at h⟩
        · rw [if_neg hcode]
          exact ⟨rfl, fun res h => by simp at h⟩
      | otherError msg =>
        dsimp only
        by_cases hrc2 : rc + 1 ≤ mr
        · rw [if_pos hrc2]
          exact ih (rc + 1) (att + 1) (sl ++ [rc])
        · rw [if_neg hrc2]
          exact ⟨rfl, fun res h => by simp at h⟩
    · rw [if_neg hg]
      exact ⟨rfl, fun res h => by simp at h⟩

/-- Claim C5: `call_nova` never mutates its input record — the first component
of the returned pair is the input record itself; a success result is a copy of
the record extended with the `model_response` and `response_text` fields (all
other fields read back unchanged); on failure the returned record is the
original input record. -/
theorem call_nova_no_mutation :
    ∀ (oracle : Nat → CallOutcome) (mr : Nat) (entry : Entry),
      (call_nova oracle mr entry).entry = entry ∧
      (∀ res, (call_nova oracle mr entry).result = some res →
        ∃ resp t, res = dictSet kResponseText t (dictSet kModelResponse resp entry) ∧
          ∀ k, k ≠ kModelResponse → k ≠ kResponseText →
            dictGet k res = dictGet k entry) ∧
      ((call_nova oracle mr entry).result = none →
        (call_nova oracle mr entry).entry = entry) := by
  intro oracle mr entry
  rw [call_nova]
  by_cases hm : (getMessages entry).truthy
  · rw [if_pos hm]
    obtain ⟨h1, h2⟩ := call_nova_loop_shape oracle mr entry (mr + 1) 0 0 []
    refine ⟨h1, fun res h => ?_, fun _ => h1⟩
    obtain ⟨resp, t, hres⟩ := h2 res h
    refine ⟨resp, t, hres, fun k hk1 hk2 => ?_⟩
    subst hres
    rw [dictGet_dictSet_ne k kResponseText t hk2,
      dictGet_dictSet_ne k kModelResponse resp hk1]
  · rw [if_neg hm]
    exact ⟨rfl, fun res h => by simp at h, fun _ => rfl⟩

/-- Witness for Claim C5 at concrete inputs. -/
theorem call_nova_no_mutation_witness :
    (call_nova oracleOK 3 entryB).entry = entryB ∧
    ∃ resp t, resultB = dictSet kResponseText t (dictSet kModelResponse resp entryB) ∧
      ∀ k, k ≠ kModelResponse → k ≠ kResponseText →
        dictGet k resultB = dictGet k entryB := by
  obtain ⟨h1, h2, h3⟩ := call_nova_no_mutation oracleOK 3 entryB
  exact ⟨h1, h2 resultB rfl⟩

/-- The `as_completed` collection loop of `process_batch` in accumulator form:
results and failures are the `filterMap` of the per-entry outcome over the
completed sequence, in completion order. -/
theorem process_batch_go (oracle : Nat → Nat → CallOutcome) (mr : Nat) :
    ∀ (l : List (Nat × Entry)) (a b : List Entry),
      l.foldl (process_batch_step oracle mr) (a, b) =
        (a ++ l.filterMap (successOf oracle mr),
          b ++ l.filterMap (failEntryOf oracle mr)) := by
  intro l
  induction l with
  | nil =>
    intro a b
    simp
  | cons p ps ih =>
    intro a b
    simp only [List.foldl_cons, process_batch_step]
    cases hr : (call_nova (oracle p.1) mr p.2).result with
    | none =>
      dsimp only
      rw [List.filterMap_cons_none (by simp [successOf, runOf, hr]),
        List.filterMap_cons_some (show failEntryOf oracle mr p
          = some ((call_nova (oracle p.1) mr p.2).entry) by
            simp [failEntryOf, runOf, hr]), ih]
      simp
    | some res =>
      dsimp only
      by_cases he : res.isEmpty
      · rw [if_pos he,
          List.filterMap_cons_none (by simp [successOf, runOf, hr, he]),
          List.filterMap_cons_some (show failEntryOf oracle mr p
            = some ((call_nova (oracle p.1) mr p.2).entry) by
              simp [failEntryOf, runOf, hr, he]), ih]
        simp
      · rw [if_neg he,
          List.filterMap_cons_some (show successOf oracle mr p = some res by
            simp [successOf, runOf, hr, he]),
          List.filterMap_cons_none (by simp [failEntryOf, runOf, hr, he]), ih]
        simp

/-- Claim C1: for every batch and every completion order of its futures (any
permutation of the indexed batch), `process_batch` partitions the batch — the
successes are exactly the truthy augmented results of the succeeding records,
the failures exactly the returned original records of the failing ones, each
record contributing to exactly one side (never both, never neither), and
`|successes| + |failures|` equals the number of records in the batch. -/
theorem process_batch_partition :
    ∀ (oracle : Nat → Nat → CallOutcome) (mr : Nat) (batch : List Entry)
      (completed : List (Nat × Entry)), completed.Perm batch.enum →
      (process_batch oracle mr completed).1.length
          + (process_batch oracle mr completed).2.length = batch.length ∧
      (process_batch oracle mr completed).1.Perm
        (batch.enum.filterMap (successOf oracle mr)) ∧
      (process_batch oracle mr completed).2.Perm
        (batch.enum.filterMap (failEntryOf oracle mr)) ∧
      ∀ p : Nat × Entry, ((successOf oracle mr p).isSome = true ↔
        failEntryOf oracle mr p = none) := by
  intro oracle mr batch completed hperm
  have heq : process_batch oracle mr completed =
      (completed.filterMap (successOf oracle mr),
        completed.filterMap (failEntryOf oracle mr)) := by
    rw [process_batch, process_batch_go]
    simp
  have hdich : ∀ p : Nat × Entry, ((successOf oracle mr p).isSome = true ↔
      failEntryOf oracle mr p = none) := by
    intro p
    simp only [successOf, failEntryOf]
    cases (runOf oracle mr p).result with
    | none => simp
    | some res =>
      by_cases he : res.isEmpty
      · simp [he]
      · simp [he]
  have hlen : ∀ l : List (Nat × Entry),
      (l.filterMap (successOf oracle mr)).length +
        (l.filterMap (failEntryOf oracle mr)).length = l.length := by
    intro l
    induction l with
    | nil => simp
    | cons p ps ihl =>
      cases hr : (runOf oracle mr p).result with
      | none =>
        rw [List.filterMap_cons_none (by simp [successOf, hr]),
          List.filterMap_cons_some (show failEntryOf oracle mr p
            = some ((runOf oracle mr p).entry) by simp [failEntryOf, hr])]
        simp only [List.length_cons, List.length_nil]
        omega
      | some res =>
        by_cases he : res.isEmpty
        · rw [List.filterMap_cons_none (by simp [successOf, hr, he]),
            List.filterMap_cons_some (show failEntryOf oracle mr p
              = some ((runOf oracle mr p).entry) by simp [failEntryOf, hr, he])]
          simp only [List.length_cons]
          omega
        · rw [List.filterMap_cons_some (show successOf oracle mr p = some res by
              simp [successOf, hr, he]),
            List.filterMap_cons_none (by simp [failEntryOf, hr, he])]
          simp only [List.length_cons]
          omega
  refine ⟨?_, ?_, ?_, hdich⟩
  · rw [heq]
    show (completed.filterMap (successOf oracle mr)).length
        + (completed.filterMap (failEntryOf oracle mr)).length = batch.length
    rw [hlen completed, hperm.length_eq]
    simp
  · rw [heq]
    exact hperm.filterMap _
  · rw [heq]
    exact hperm.filterMap _

/-- Witness for Claim C1: a one-record batch under a succeeding oracle. -/
theorem process_batch_partition_witness :
    (process_batch oracleOK2 3 [(0, entryB)]).1.length
        + (process_batch oracleOK2 3 [(0, entryB)]).2.length = [entryB].length ∧
    ((successOf oracleOK2 3 (0, entryB)).isSome = true ↔
      failEntryOf oracleOK2 3 (0, entryB) = none) := by
  obtain ⟨h1, h2, h3, h4⟩ :=
    process_batch_partition oracleOK2 3 [entryB] [(0, entryB)]
      (by
        have he : [entryB].enum = [(0, entryB)] := rfl
        rw [he])
  exact ⟨h1, h4 (0, entryB)⟩

/-- Counterexample to Claim C7: a `validate` run on an existing `.jsonl` file
whose single line is structurally invalid (empty `messages` list): validation
fails, yet the process exit code is 0, not non-zero. -/
theorem cmd_validate_exit_counterexample :
    validate_jsonl parseV true pathV [lineV] = false ∧
    cmd_validate parseV true pathV [lineV] = 0 :=
  ⟨rfl, rfl⟩

/-- Claim C7 amended: the `validate` subcommand always exits with code 0,
whether validation passes or fails — `cmd_validate` discards the boolean result
of `validate_jsonl`, which is `True` exactly when the file exists, has the
`.jsonl` extension and no line is counted invalid. -/
theorem cmd_validate_exit_spec :
    ∀ (parse : String → Option JVal) (fileExists : Bool) (path : String)
      (lines : List String),
      cmd_validate parse fileExists path lines = 0 ∧
      (validate_jsonl parse fileExists path lines = true ↔
        fileExists = true ∧ strEndsWith path sJsonlExt = true ∧
          (validate_counts parse lines).2 = 0) := by
  intro parse fe path lines
  refine ⟨rfl, ?_⟩
  rw [validate_jsonl]
  cases fe with
  | false => simp
  | true =>
    cases he : strEndsWith path sJsonlExt with
    | false => simp [he]
    | true => simp [he]

/-- Witness for Claim C7 (amended) at concrete inputs. -/
theorem cmd_validate_exit_spec_witness :
    cmd_validate parseV true pathV [lineV] = 0 :=
  (cmd_validate_exit_spec parseV true pathV [lineV]).1

/-- `infer_step` preserves the fresh-run invariant of the primary output. -/
theorem infer_step_fresh (oracle : Nat → Nat → Nat → CallOutcome) (mr : Nat)
    (st : InferState) (b : Nat × List Entry) (hI : fresh_inv st) :
    fresh_inv (infer_step oracle mr st b) := by
  obtain ⟨hfile, hcase⟩ := hI
  unfold fresh_inv infer_step
  dsimp only
  by_cases hre : (process_batch (oracle b.1) mr b.2.enum).1 = []
  · simp only [hre, List.isEmpty_nil, if_true, List.append_nil, Bool.not_true,
      Bool.or_false]
    exact ⟨hfile, hcase⟩
  · have hre2 : (process_batch (oracle b.1) mr b.2.enum).1.isEmpty = false := by
      simpa [List.isEmpty_iff] using hre
    rcases hcase with ⟨ho, ha, hm⟩ | ⟨ho, k, hm⟩
    · refine ⟨?_, Or.inr ⟨?_, 0, ?_⟩⟩ <;>
        simp [hre2, ho, ha, hm, hfile, save_to_jsonl]
    · refine ⟨?_, Or.inr ⟨?_, k + 1, ?_⟩⟩ <;>
        simp [hre2, ho, hm, hfile, save_to_jsonl, List.replicate_succ']

/-- `infer_step` preserves the pre-existing-output invariant. -/
theorem infer_step_append (oracle : Nat → Nat → Nat → CallOutcome) (mr : Nat)
    (st : InferState) (b : Nat × List Entry) (hI : append_inv st) :
    append_inv (infer_step oracle mr st b) := by
  obtain ⟨ho, k, hm⟩ := hI
  unfold append_inv infer_step
  dsimp only
  by_cases hre : (process_batch (oracle b.1) mr b.2.enum).1 = []
  · refine ⟨?_, k, ?_⟩ <;> simp [hre, ho, hm]
  · have hre2 : (process_batch (oracle b.1) mr b.2.enum).1.isEmpty = false := by
      simpa [List.isEmpty_iff] using hre
    refine ⟨?_, k + 1, ?_⟩ <;> simp [hre2, ho, hm, List.replicate_succ']

/-- The batch-loop fold preserves the fresh-run invariant. -/
theorem infer_fold_fresh (oracle : Nat → Nat → Nat → CallOutcome) (mr : Nat) :
    ∀ (l : List (Nat × List Entry)) (st : InferState),
      fresh_inv st → fresh_inv (l.foldl (infer_step oracle mr) st) := by
  intro l
  induction l with
  | nil => intro st h; exact h
  | cons b bs ih =>
    intro st h
    exact ih _ (infer_step_fresh oracle mr st b h)

/-- The batch-loop fold preserves the pre-existing-output invariant. -/
theorem infer_fold_append (oracle : Nat → Nat → Nat → CallOutcome) (mr : Nat) :
    ∀ (l : List (Nat × List Entry)) (st : InferState),
      append_inv st → append_inv (l.foldl (infer_step oracle mr) st) := by
  intro l
  induction l with
  | nil => intro st h; exact h
  | cons b bs ih =>
    intro st h
    exact ih _ (infer_step_append oracle mr st b h)

/-- Claim C8 amended: in a run whose primary output file does not exist at the
start, the first flush of the primary results output uses overwrite mode and
every later flush of that run uses append mode, so the results file is exactly
the concatenation of all flushed batch results (a kill after any flush loses at
most the in-flight batch); but in a run whose output file already exists at the
start, every flush — including the first — uses append mode. -/
theorem cmd_infer_write_mode_spec :
    ∀ (oracle : Nat → Nat → Nat → CallOutcome) (mr bs : Nat) (f0 : Bool)
      (data : List Entry),
      (cmd_infer_run oracle mr bs false f0 data).resultsFile
          = (cmd_infer_run oracle mr bs false f0 data).allResults ∧
      ((cmd_infer_run oracle mr bs false f0 data).resultModes = [] ∨
        ∃ k, (cmd_infer_run oracle mr bs false f0 data).resultModes
            = WMode.write :: List.replicate k WMode.append) ∧
      ∃ j, (cmd_infer_run oracle mr bs true f0 data).resultModes
          = List.replicate j WMode.append := by
  intro oracle mr bs f0 data
  have h1 : fresh_inv (cmd_infer_run oracle mr bs false f0 data) :=
    infer_fold_fresh oracle mr ((chunks bs data).enum) _
      ⟨rfl, Or.inl ⟨rfl, rfl, rfl⟩⟩
  have h2 : append_inv (cmd_infer_run oracle mr bs true f0 data) :=
    infer_fold_append oracle mr ((chunks bs data).enum) _ ⟨rfl, 0, rfl⟩
  obtain ⟨hf, hc⟩ := h1
  refine ⟨hf, ?_, h2.2⟩
  rcases hc with ⟨h3, h4, hm⟩ | ⟨h3, k, hm⟩
  · exact Or.inl hm
  · exact Or.inr ⟨k, hm⟩

/-- Counterexample to Claim C8: with the primary output file already existing
when the run starts, the first (and only) flush of the run uses append mode,
not overwrite mode. -/
theorem cmd_infer_first_flush_append_counterexample :
    (cmd_infer_run oracleOK3 3 20 true false [entryB]).resultModes
        = [WMode.append] ∧
    WMode.append ≠ WMode.write :=
  ⟨rfl, fun h => WMode.noConfusion h⟩

/-- Claim C9: when the loaded input contains zero records (and the start index
is 0, which leaves the data unchanged), the batch loop of `cmd_infer` runs no
batch, both accumulators stay empty, and the success-rate division of the final
summary divides by zero — `infer_summary` is `none`, the modelled
`ZeroDivisionError`. -/
theorem cmd_infer_zero_records_crash :
    ∀ (parse : String → Option JVal) (lines : List String)
      (oracle : Nat → Nat → Nat → CallOutcome) (mr bs : Nat) (e0 f0 : Bool)
      (data : List Entry),
      (read_jsonl parse lines).data = [] →
      data.length = (read_jsonl parse lines).data.length →
      apply_start_index 0 data = some data ∧
      (cmd_infer_run oracle mr bs e0 f0 data).allResults = [] ∧
      (cmd_infer_run oracle mr bs e0 f0 data).allFailures = [] ∧
      infer_summary (cmd_infer_run oracle mr bs e0 f0 data) = none := by
  intro parse lines oracle mr bs e0 f0 data hdata hlen
  have hnil : data = [] := by
    refine List.eq_nil_of_length_eq_zero ?_
    rw [hlen, hdata]
    rfl
  subst hnil
  have hch : chunks bs ([] : List Entry) = [] := by
    rw [chunks]
    split
    · rfl
    · rfl
  have hrun : cmd_infer_run oracle mr bs e0 f0 [] =
      ⟨e0, f0, [], [], [], [], [], []⟩ := by
    rw [cmd_infer_run, hch]
    rfl
  rw [hrun]
  exact ⟨rfl, rfl, rfl, rfl⟩

/-- Witness for Claim C9: a file whose only line fails to parse loads zero
records, and the summary of the run on the empty workload divides by zero. -/
theorem cmd_infer_zero_records_crash_witness :
    infer_summary (cmd_infer_run oracleOK3 3 20 true false []) = none :=
  (cmd_infer_zero_records_crash parseNone [lineB9] oracleOK3 3 20 true false []
    rfl rfl).2.2.2





end NovaInferencer
